import Mathlib

/-!
Verification of the reStitcher / Relix GitLab release-manager sources.

Strings are modelled at the character level: the Go byte-level `strings`
operations are translated to `List Char` recursions and converted back with
`List.asString`, so that every definition evaluates inside the kernel.
External collaborators (the HTTP transport, the JSON decoder, the lipgloss
renderer, the ANSI width/truncation helpers) are passed in as explicit
function parameters, so theorems quantify over every possible behaviour of
those libraries while the repository's own logic stays fixed.
-/

/-- Character-level model of Go `strings.ToLower` (ASCII case mapping). -/
def goToLower (s : String) : String :=
  (s.toList.map Char.toLower).asString

/-- Character-level model of Go `strings.TrimSpace`: drop whitespace from
both ends of the string. -/
def goTrimSpace (s : String) : String :=
  (((s.toList.dropWhile Char.isWhitespace).reverse.dropWhile Char.isWhitespace).reverse).asString

/-- Character-level model of `strings.Split s sep` for a one-character
separator, at the list level. `strings.Split` on a non-empty separator
always returns at least one (possibly empty) piece. -/
def splitOnChar (sep : Char) : List Char → List (List Char)
  | [] => [[]]
  | c :: rest =>
    let r := splitOnChar sep rest
    if c = sep then [] :: r
    else
      match r with
      | [] => [[c]]
      | l :: ls => (c :: l) :: ls

/-- `strings.Split s sep` (single-character separator) on strings. -/
def goSplitLines (sep : Char) (s : String) : List String :=
  (splitOnChar sep s.toList).map List.asString

/-- Character-level model of `strings.Contains`. -/
def goContains (s sub : String) : Bool :=
  s.toList.tails.any (fun t => sub.toList.isPrefixOf t)

/-- The hex-digit test used by `isValidHexColor` (unnamed/part_002):
`0-9`, `a-f` or `A-F`. -/
def isHexColorDigit (c : Char) : Bool :=
  ('0' ≤ c && c ≤ '9') || ('a' ≤ c && c ≤ 'f') || ('A' ≤ c && c ≤ 'F')

/-- `isValidHexColor` from unnamed/part_002: exactly 7 characters, a leading
`#`, and six hex digits. -/
def isValidHexColor (s : String) : Bool :=
  let cs := s.toList
  cs.length == 7 && cs.headD ' ' == '#' && (cs.drop 1).all isHexColorDigit

/-- `isTransparent` from unnamed/part_002: lower-cased, space-trimmed value
equals `"transparent"`. -/
def isTransparent (value : String) : Bool :=
  goTrimSpace (goToLower value) == "transparent"

/-- `resolveColor` from unnamed/part_002: `"transparent"` is an explicit
no-color, an empty or syntactically invalid value falls back, a valid
`#RRGGBB` value is kept. Colors are plain strings, as `lipgloss.Color` is. -/
def resolveColor (value : String) (fallback : String) : String :=
  if isTransparent value then ""
  else if value == "" || !(isValidHexColor value) then fallback
  else value

/-- `resolveForegroundColor` from unnamed/part_002: three-level fallback
through the specific foreground, the theme foreground, and the default. -/
def resolveForegroundColor (value themeFg : String) (defaultColor : String) : String :=
  if isTransparent value then ""
  else if value != "" && isValidHexColor value then value
  else if isTransparent themeFg then ""
  else if themeFg != "" && isValidHexColor themeFg then themeFg
  else defaultColor

/-- `ThemeConfig` from unnamed/part_002 (the raw config-file record). -/
structure ThemeConfig where
  Name : String := ""
  Background : String := ""
  Accent : String := ""
  AccentForeground : String := ""
  Foreground : String := ""
  Notion : String := ""
  NotionForeground : String := ""
  Success : String := ""
  SuccessForeground : String := ""
  Warning : String := ""
  WarningForeground : String := ""
  Error : String := ""
  ErrorForeground : String := ""
  Muted : String := ""
  MutedForeground : String := ""
  EnvDevelop : String := ""
  EnvTest : String := ""
  EnvStage : String := ""
  EnvProd : String := ""
deriving DecidableEq

/-- `ThemeColors` from unnamed/part_002 (resolved lipgloss colors). -/
structure ThemeColors where
  Background : String := ""
  HasBackground : Bool := false
  Accent : String := ""
  AccentForeground : String := ""
  Foreground : String := ""
  Notion : String := ""
  NotionForeground : String := ""
  Success : String := ""
  SuccessForeground : String := ""
  Warning : String := ""
  WarningForeground : String := ""
  Error : String := ""
  ErrorForeground : String := ""
  Muted : String := ""
  MutedForeground : String := ""
  EnvDevelop : String := ""
  EnvTest : String := ""
  EnvStage : String := ""
  EnvProd : String := ""
deriving DecidableEq

/-- `defaultThemeColors` from unnamed/part_002 (hardcoded indigo theme). -/
def defaultThemeColors : ThemeColors :=
  { Accent := "#5F5FDF"
    AccentForeground := "231"
    Foreground := "#D7D7FF"
    Notion := "#5F5F8A"
    NotionForeground := "#D7D7FF"
    Success := "#00D588"
    SuccessForeground := "#D7D7FF"
    Warning := "#FFD600"
    WarningForeground := "#D7D7FF"
    Error := "#FF84A8"
    ErrorForeground := "#D7D7FF"
    Muted := "#2A2A3C"
    MutedForeground := "#686889"
    EnvDevelop := "#5F5FDF"
    EnvTest := "#FFD600"
    EnvStage := "#00D588"
    EnvProd := "#FF84A8" }

/-- `themeFromConfig` from unnamed/part_002: converts a `ThemeConfig` to
`ThemeColors`, resolving every color against the defaults, with the
environment colors defaulting to the already-resolved base colors. -/
def themeFromConfig (tc : ThemeConfig) : ThemeColors :=
  let hasBackground := tc.Background != "" && !(isTransparent tc.Background) && isValidHexColor tc.Background
  let bg := if hasBackground then tc.Background else ""
  let accent := resolveColor tc.Accent defaultThemeColors.Accent
  let success := resolveColor tc.Success defaultThemeColors.Success
  let warning := resolveColor tc.Warning defaultThemeColors.Warning
  let errColor := resolveColor tc.Error defaultThemeColors.Error
  { Background := bg
    HasBackground := hasBackground
    Accent := accent
    AccentForeground := resolveForegroundColor tc.AccentForeground tc.Foreground defaultThemeColors.AccentForeground
    Foreground := resolveColor tc.Foreground defaultThemeColors.Foreground
    Notion := resolveColor tc.Notion defaultThemeColors.Notion
    NotionForeground := resolveForegroundColor tc.NotionForeground tc.Foreground defaultThemeColors.NotionForeground
    Success := success
    SuccessForeground := resolveForegroundColor tc.SuccessForeground tc.Foreground defaultThemeColors.SuccessForeground
    Warning := warning
    WarningForeground := resolveForegroundColor tc.WarningForeground tc.Foreground defaultThemeColors.WarningForeground
    Error := errColor
    ErrorForeground := resolveForegroundColor tc.ErrorForeground tc.Foreground defaultThemeColors.ErrorForeground
    Muted := resolveColor tc.Muted defaultThemeColors.Muted
    MutedForeground := resolveForegroundColor tc.MutedForeground tc.Foreground defaultThemeColors.MutedForeground
    EnvDevelop := resolveColor tc.EnvDevelop accent
    EnvTest := resolveColor tc.EnvTest warning
    EnvStage := resolveColor tc.EnvStage success
    EnvProd := resolveColor tc.EnvProd errColor }

/-- The color fields a resolved theme carries (everything but the
`HasBackground` flag). -/
def themeColorFields (t : ThemeColors) : List String :=
  [t.Background, t.Accent, t.AccentForeground, t.Foreground, t.Notion,
   t.NotionForeground, t.Success, t.SuccessForeground, t.Warning,
   t.WarningForeground, t.Error, t.ErrorForeground, t.Muted,
   t.MutedForeground, t.EnvDevelop, t.EnvTest, t.EnvStage, t.EnvProd]

/-- Membership in the hardcoded default palette of unnamed/part_002. -/
def isDefaultThemeColor (c : String) : Bool :=
  c ∈ themeColorFields defaultThemeColors

/-- A color string is acceptable when it is empty, a syntactically valid
`#RRGGBB` value, or one of the hardcoded default palette colors. -/
def colorOk (c : String) : Prop :=
  c = "" ∨ isValidHexColor c = true ∨ isDefaultThemeColor c = true

instance (c : String) : Decidable (colorOk c) := by
  unfold colorOk
  infer_instance

theorem resolveColor_trichotomy (v f : String) :
    resolveColor v f = "" ∨ resolveColor v f = f ∨ isValidHexColor (resolveColor v f) = true := by
  unfold resolveColor
  split
  · exact Or.inl rfl
  · split
    · exact Or.inr (Or.inl rfl)
    · rename_i h1 h2
      simp only [Bool.or_eq_true, beq_iff_eq, Bool.not_eq_true'] at h2
      push_neg at h2
      exact Or.inr (Or.inr (by simpa using h2.2))

theorem resolveForegroundColor_trichotomy (v tfg d : String) :
    resolveForegroundColor v tfg d = "" ∨ resolveForegroundColor v tfg d = d ∨
      isValidHexColor (resolveForegroundColor v tfg d) = true := by
  unfold resolveForegroundColor
  split
  · exact Or.inl rfl
  · split
    · rename_i h1 h2
      simp only [Bool.and_eq_true] at h2
      exact Or.inr (Or.inr h2.2)
    · split
      · exact Or.inl rfl
      · split
        · rename_i h1 h2 h3 h4
          simp only [Bool.and_eq_true] at h4
          exact Or.inr (Or.inr h4.2)
        · exact Or.inr (Or.inl rfl)

theorem resolveColor_colorOk (v f : String) (hf : colorOk f) : colorOk (resolveColor v f) := by
  rcases resolveColor_trichotomy v f with h | h | h
  · exact Or.inl h
  · rw [h]; exact hf
  · exact Or.inr (Or.inl h)

theorem resolveForegroundColor_colorOk (v tfg d : String) (hd : colorOk d) :
    colorOk (resolveForegroundColor v tfg d) := by
  rcases resolveForegroundColor_trichotomy v tfg d with h | h | h
  · exact Or.inl h
  · rw [h]; exact hd
  · exact Or.inr (Or.inl h)

theorem default_palette_colorOk : ∀ c ∈ themeColorFields defaultThemeColors, colorOk c := by
  decide

/-- C9: `resolveColor(v, f)` is the empty color when `v` trimmed and
lower-cased equals `"transparent"`; it is the fallback `f` when `v` is empty
or not exactly `#` followed by six hex digits; it is `v` itself otherwise.
Consequently every color field produced by `themeFromConfig` is either
empty, a syntactically valid `#RRGGBB` value, or a hardcoded default
palette color. -/
theorem resolveColor_spec_and_themeFromConfig_colors (v f : String) (tc : ThemeConfig) :
    (goTrimSpace (goToLower v) = "transparent" → resolveColor v f = "")
    ∧ (goTrimSpace (goToLower v) ≠ "transparent" →
        (v = "" ∨ isValidHexColor v = false) → resolveColor v f = f)
    ∧ (goTrimSpace (goToLower v) ≠ "transparent" →
        v ≠ "" → isValidHexColor v = true → resolveColor v f = v)
    ∧ (∀ c ∈ themeColorFields (themeFromConfig tc), colorOk c) := by
  refine ⟨?_, ?_, ?_, ?_⟩
  · intro h
    have ht : isTransparent v = true := by simp [isTransparent, h]
    simp [resolveColor, ht]
  · intro h hv
    have ht : isTransparent v = false := by
      simp only [isTransparent, beq_eq_false_iff_ne, ne_eq]
      exact h
    rcases hv with hv | hv
    · subst hv
      simp [resolveColor, ht]
    · simp [resolveColor, ht, hv]
  · intro h hne hval
    have ht : isTransparent v = false := by
      simp only [isTransparent, beq_eq_false_iff_ne, ne_eq]
      exact h
    simp [resolveColor, ht, hne, hval]
  · intro c hc
    have hAccent : colorOk (resolveColor tc.Accent defaultThemeColors.Accent) :=
      resolveColor_colorOk _ _ (by decide)
    have hSuccess : colorOk (resolveColor tc.Success defaultThemeColors.Success) :=
      resolveColor_colorOk _ _ (by decide)
    have hWarning : colorOk (resolveColor tc.Warning defaultThemeColors.Warning) :=
      resolveColor_colorOk _ _ (by decide)
    have hError : colorOk (resolveColor tc.Error defaultThemeColors.Error) :=
      resolveColor_colorOk _ _ (by decide)
    simp only [themeFromConfig, themeColorFields, List.mem_cons, List.not_mem_nil, or_false] at hc
    rcases hc with h | h | h | h | h | h | h | h | h | h | h | h | h | h | h | h | h | h <;> subst h
    · by_cases hb : (tc.Background != "" && !(isTransparent tc.Background) && isValidHexColor tc.Background) = true
      · simp only [hb, if_true]
        simp only [Bool.and_eq_true] at hb
        exact Or.inr (Or.inl hb.2)
      · simp only [Bool.not_eq_true] at hb
        simp only [hb]
        exact Or.inl rfl
    · exact hAccent
    · exact resolveForegroundColor_colorOk _ _ _ (by decide)
    · exact resolveColor_colorOk _ _ (by decide)
    · exact resolveColor_colorOk _ _ (by decide)
    · exact resolveForegroundColor_colorOk _ _ _ (by decide)
    · exact hSuccess
    · exact resolveForegroundColor_colorOk _ _ _ (by decide)
    · exact hWarning
    · exact resolveForegroundColor_colorOk _ _ _ (by decide)
    · exact hError
    · exact resolveForegroundColor_colorOk _ _ _ (by decide)
    · exact resolveColor_colorOk _ _ (by decide)
    · exact resolveForegroundColor_colorOk _ _ _ (by decide)
    · exact resolveColor_colorOk _ _ hAccent
    · exact resolveColor_colorOk _ _ hWarning
    · exact resolveColor_colorOk _ _ hSuccess
    · exact resolveColor_colorOk _ _ hError

/-- Closed instance of the `resolveColor` specification at concrete inputs. -/
theorem resolveColor_spec_witness :
    resolveColor " TRANSPARENT " "#11AA22" = ""
    ∧ resolveColor "nonsense" "#11AA22" = "#11AA22"
    ∧ resolveColor "#00FF11" "#11AA22" = "#00FF11"
    ∧ colorOk (themeFromConfig { Accent := "oops" } ).Accent := by
  obtain ⟨h1, h2, h3, _⟩ := resolveColor_spec_and_themeFromConfig_colors " TRANSPARENT " "#11AA22" { Accent := "oops" }
  obtain ⟨_, h2', h3', _⟩ := resolveColor_spec_and_themeFromConfig_colors "nonsense" "#11AA22" { Accent := "oops" }
  obtain ⟨_, _, h3'', h4⟩ := resolveColor_spec_and_themeFromConfig_colors "#00FF11" "#11AA22" { Accent := "oops" }
  refine ⟨h1 (by decide), h2' (by decide) (Or.inr (by decide)), h3'' (by decide) (by decide) (by decide), ?_⟩
  exact h4 _ (by simp [themeColorFields])

/-- The four release environments of the workflow. -/
inductive Environment where
  | DEVELOP
  | TEST
  | STAGE
  | PROD
deriving DecidableEq

/-- Modelled from the spec: the static environment→root-branch mapping
(DEVELOP→develop, TEST→testing, STAGE→stable, PROD→master). The function
itself is not among the files under src/; only the spec and the README
document it. -/
def envRootBranch : Environment → String
  | .DEVELOP => "develop"
  | .TEST => "testing"
  | .STAGE => "stable"
  | .PROD => "master"

/-- C4: the environment→root-branch mapping is total on the four
environments (totality is inherent in the Lean function) and fixed:
DEVELOP maps to `develop`, TEST to `testing`, STAGE to `stable`, and PROD
to `master`, and these are the only four environments. -/
theorem envRootBranch_fixed_total :
    envRootBranch .DEVELOP = "develop"
    ∧ envRootBranch .TEST = "testing"
    ∧ envRootBranch .STAGE = "stable"
    ∧ envRootBranch .PROD = "master"
    ∧ ∀ e : Environment,
        e = .DEVELOP ∨ e = .TEST ∨ e = .STAGE ∨ e = .PROD := by
  refine ⟨rfl, rfl, rfl, rfl, ?_⟩
  intro e
  cases e
  · exact Or.inl rfl
  · exact Or.inr (Or.inl rfl)
  · exact Or.inr (Or.inr (Or.inl rfl))
  · exact Or.inr (Or.inr (Or.inr rfl))

/-- `MergeRequest` as decoded from the GitLab API (the fields the client
reads; the struct definition itself is outside src/). -/
structure MergeRequest where
  iid : Nat
  projectID : Nat
  title : String
  webURL : String
deriving DecidableEq

/-- Outcome of one HTTP round-trip: either the transport fails before a
response arrives, or a response with a status code and a body comes back. -/
inductive HTTPResult where
  | netError (msg : String)
  | response (status : Nat) (body : String)
deriving DecidableEq

/-- `CreateMergeRequest` from gitlab.go: POSTs the payload and interprets
the result. `parse` abstracts `encoding/json` decoding of the response
body into a `MergeRequest`; `result` abstracts the transport round-trip.
A non-201 status is an error (with a dedicated message for a 403 caused
by a token missing the api scope); a 201 whose body decodes yields the
created merge request. -/
def CreateMergeRequest (parse : String → Option MergeRequest)
    (projectID : Nat) (sourceBranch targetBranch title description : String)
    (result : HTTPResult) : Except String MergeRequest :=
  match result with
  | .netError m => .error ("network error: " ++ m)
  | .response status body =>
    if status ≠ 201 then
      if status = 403 ∧ goContains body "insufficient_scope" = true then
        .error "token lacks 'api' scope - please regenerate your GitLab token with 'api' scope enabled"
      else
        .error ("GitLab API error: status " ++ toString status ++ ", body: " ++ body)
    else
      match parse body with
      | none => .error "failed to parse response"
      | some mr => .ok mr

/-- C3: `CreateMergeRequest` returns an error (and no merge request) when
the request cannot be sent or the response status differs from 201, and
returns the created merge request decoded from the body — the value
carrying the merge-request URL — when the status is 201 and the body
parses. -/
theorem CreateMergeRequest_spec (parse : String → Option MergeRequest)
    (projectID : Nat) (sourceBranch targetBranch title description : String)
    (result : HTTPResult) :
    (∀ m, result = .netError m →
      ∃ e, CreateMergeRequest parse projectID sourceBranch targetBranch title description result = .error e)
    ∧ (∀ status body, result = .response status body → status ≠ 201 →
      ∃ e, CreateMergeRequest parse projectID sourceBranch targetBranch title description result = .error e)
    ∧ (∀ body mr, result = .response 201 body → parse body = some mr →
      CreateMergeRequest parse projectID sourceBranch targetBranch title description result = .ok mr) := by
  refine ⟨?_, ?_, ?_⟩
  · intro m hm
    subst hm
    exact ⟨_, rfl⟩
  · intro status body hr hs
    subst hr
    simp only [CreateMergeRequest, if_pos hs]
    by_cases h403 : status = 403 ∧ goContains body "insufficient_scope" = true
    · rw [if_pos h403]
      exact ⟨_, rfl⟩
    · rw [if_neg h403]
      exact ⟨_, rfl⟩
  · intro body mr hr hp
    subst hr
    simp [CreateMergeRequest, hp]

/-- Closed instance of the `CreateMergeRequest` specification: a rejected
status yields an error, a 201 with a parsable body yields the decoded MR. -/
theorem CreateMergeRequest_spec_witness :
    (∃ e, CreateMergeRequest (fun _ => some ⟨7, 42, "t", "https://gl/mr/7"⟩)
        42 "release/1.2.0" "master" "t" "d" (.response 403 "insufficient_scope") = .error e)
    ∧ CreateMergeRequest (fun _ => some ⟨7, 42, "t", "https://gl/mr/7"⟩)
        42 "release/1.2.0" "master" "t" "d" (.response 201 "{}") =
      .ok ⟨7, 42, "t", "https://gl/mr/7"⟩ := by
  obtain ⟨h1, h2, h3⟩ := CreateMergeRequest_spec (fun _ => some ⟨7, 42, "t", "https://gl/mr/7"⟩)
    42 "release/1.2.0" "master" "t" "d" (.response 403 "insufficient_scope")
  obtain ⟨g1, g2, g3⟩ := CreateMergeRequest_spec (fun _ => some ⟨7, 42, "t", "https://gl/mr/7"⟩)
    42 "release/1.2.0" "master" "t" "d" (.response 201 "{}")
  exact ⟨h2 403 "insufficient_scope" rfl (by decide), g3 "{}" _ rfl rfl⟩

/-- `Credentials` from unnamed/part_003 (keyring record). -/
structure Credentials where
  GitLabURL : String
  Email : String
  Token : String
deriving DecidableEq

/-- Character-level model of Go `strings.EqualFold` (case-insensitive
equality under the ASCII case mapping). -/
def equalFold (a b : String) : Bool :=
  goToLower a == goToLower b

/-- `ValidateCredentials` from gitlab.go: fetch the account's email
addresses (`fetchEmails` abstracts the `GetUserEmails` round-trip), then
succeed exactly when one of them equals the supplied email ignoring case.
`none` is Go's nil error; `some e` carries the error message. -/
def ValidateCredentials (fetchEmails : Except String (List String))
    (creds : Credentials) : Option String :=
  match fetchEmails with
  | .error e => some e
  | .ok emails =>
    if emails.any (fun email => equalFold email creds.Email) then none
    else some ("email '" ++ creds.Email ++ "' not found in your GitLab account")

/-- The `authResultMsg` record from unnamed/part_003. -/
structure AuthResultMsg where
  err : Option String
deriving DecidableEq

/-- `validateCredentialsCmd` from unnamed/part_001: validate first, and
persist via SaveCredentials only when validation returned nil. `stored`
is the keyring content before the call; `saveErr` abstracts a
SaveCredentials failure (SaveCredentials itself lives outside src/).
Returns the keyring content after the call and the auth result message. -/
def validateCredentialsCmd (fetchEmails : Except String (List String))
    (creds : Credentials) (stored : Option Credentials) (saveErr : Option String) :
    Option Credentials × AuthResultMsg :=
  match ValidateCredentials fetchEmails creds with
  | some err => (stored, ⟨some err⟩)
  | none =>
    match saveErr with
    | some err => (stored, ⟨some err⟩)
    | none => (some creds, ⟨none⟩)

/-- C8: credentials are persisted only after a nil validation result;
validation succeeds exactly when the fetched email list contains an
address equal to the supplied one ignoring case; on any validation or
network failure the stored credentials are unchanged and the error is
surfaced as the auth result. -/
theorem validateCredentialsCmd_spec (fetchEmails : Except String (List String))
    (creds : Credentials) (stored : Option Credentials) (saveErr : Option String) :
    (∀ emails, fetchEmails = .ok emails →
      (ValidateCredentials fetchEmails creds = none ↔
        emails.any (fun email => equalFold email creds.Email) = true))
    ∧ (∀ m, fetchEmails = .error m → ∃ e, ValidateCredentials fetchEmails creds = some e)
    ∧ (∀ err, ValidateCredentials fetchEmails creds = some err →
        validateCredentialsCmd fetchEmails creds stored saveErr = (stored, ⟨some err⟩))
    ∧ (ValidateCredentials fetchEmails creds = none → saveErr = none →
        validateCredentialsCmd fetchEmails creds stored saveErr = (some creds, ⟨none⟩)) := by
  refine ⟨?_, ?_, ?_, ?_⟩
  · intro emails he
    subst he
    constructor
    · intro h
      by_contra hany
      simp only [ValidateCredentials, Bool.not_eq_true] at h hany
      rw [if_neg (by simp [hany])] at h
      exact Option.noConfusion h
    · intro h
      simp [ValidateCredentials, h]
  · intro m hm
    subst hm
    exact ⟨m, rfl⟩
  · intro err herr
    simp [validateCredentialsCmd, herr]
  · intro hok hsave
    simp [validateCredentialsCmd, hok, hsave]

/-- Closed instance of the credentials-command specification: a matching
email (differing only in case) validates and is saved; a failing fetch
leaves the stored credentials untouched. -/
theorem validateCredentialsCmd_spec_witness :
    ValidateCredentials (.ok ["User@Example.com"]) ⟨"https://gl", "user@example.com", "tok"⟩ = none
    ∧ validateCredentialsCmd (.ok ["User@Example.com"]) ⟨"https://gl", "user@example.com", "tok"⟩ none none
        = (some ⟨"https://gl", "user@example.com", "tok"⟩, ⟨none⟩)
    ∧ validateCredentialsCmd (.error "network error") ⟨"https://gl", "user@example.com", "tok"⟩
        (some ⟨"https://old", "old@example.com", "old"⟩) none
        = (some ⟨"https://old", "old@example.com", "old"⟩, ⟨some "network error"⟩) := by
  obtain ⟨h1, _, _, h4⟩ := validateCredentialsCmd_spec (.ok ["User@Example.com"])
    ⟨"https://gl", "user@example.com", "tok"⟩ none none
  obtain ⟨_, _, g3, _⟩ := validateCredentialsCmd_spec (.error "network error")
    ⟨"https://gl", "user@example.com", "tok"⟩ (some ⟨"https://old", "old@example.com", "old"⟩) none
  have hv : ValidateCredentials (.ok ["User@Example.com"])
      (⟨"https://gl", "user@example.com", "tok"⟩ : Credentials) = none :=
    (h1 ["User@Example.com"] rfl).mpr (by decide)
  exact ⟨hv, h4 hv rfl, g3 "network error" rfl⟩

/-- `ThemeANSIMap` (the ThemeColorSnapshot stored with each history
record): the captured ANSI escape prefixes for the five semantic colors. -/
structure ThemeANSIMap where
  Warning : String
  Success : String
  Error : String
  Accent : String
  Foreground : String
deriving DecidableEq

/-- `captureANSIForeground` from unnamed/part_002: render the single
character `X` with the given foreground color and keep everything before
the `X` — the ANSI escape prefix. `render` abstracts
`lipgloss.NewStyle().Foreground(color).Render("X")` (external library).
`strings.Index` is modelled at the character level: an index equal to the
length means not found (Go's -1), and an index of zero also yields "". -/
def captureANSIForeground (render : String → String) (color : String) : String :=
  let chars := (render color).toList
  let idx := chars.indexOf 'X'
  if 0 < idx ∧ idx < chars.length then (chars.take idx).asString else ""

/-- `buildThemeANSIMap` from unnamed/part_002: capture the escape prefix
for each of the five semantic colors of the theme. -/
def buildThemeANSIMap (render : String → String) (theme : ThemeColors) : ThemeANSIMap :=
  { Warning := captureANSIForeground render theme.Warning
    Success := captureANSIForeground render theme.Success
    Error := captureANSIForeground render theme.Error
    Accent := captureANSIForeground render theme.Accent
    Foreground := captureANSIForeground render theme.Foreground }

/-- `defaultThemeANSIMap` from unnamed/part_002: the map for the hardcoded
indigo theme, the fallback for history records saved before theme maps
were introduced. -/
def defaultThemeANSIMap (render : String → String) : ThemeANSIMap :=
  buildThemeANSIMap render defaultThemeColors

theorem captureANSIForeground_of_render (render : String → String) (color : String)
    (esc rest : String) (hr : render color = esc ++ "X" ++ rest)
    (hx : 'X' ∉ esc.toList) : captureANSIForeground render color = esc := by
  have hdata : (render color).toList = esc.toList ++ 'X' :: rest.toList := by
    rw [hr]
    simp [String.toList, String.data_append]
  have hidx : ((render color).toList).indexOf 'X' = esc.toList.length := by
    rw [hdata, List.indexOf_append_of_not_mem hx]
    simp [List.indexOf_cons_self]
  unfold captureANSIForeground
  by_cases h0 : 0 < esc.toList.length
  · rw [if_pos]
    · rw [hidx, hdata, List.take_left]
      cases esc
      rfl
    · constructor
      · rw [hidx]; exact h0
      · rw [hidx, hdata]
        simp
  · have : esc.toList = [] := by
      cases hn : esc.toList
      · rfl
      · rw [hn] at h0; simp at h0
    rw [if_neg]
    · have : esc = "" := by
        cases esc
        simp only [String.toList] at this
        simp [this]
      rw [this]
    · rw [hidx, this]
      simp

/-- C7: whenever the renderer emits an escape prefix, then the character,
for each of the theme's five semantic colors (`render c = esc c ++ "X" ++
rest c` with no `X` inside the prefix), `buildThemeANSIMap` stores for each
of the five semantic colors (Warning, Success, Error, Accent, Foreground)
exactly that escape prefix, and `defaultThemeANSIMap` — the fallback for
records saved before theme maps existed — equals `buildThemeANSIMap` of
the hardcoded default theme. -/
theorem buildThemeANSIMap_spec (render : String → String) (theme : ThemeColors)
    (esc rest : String → String)
    (hr : ∀ color ∈ [theme.Warning, theme.Success, theme.Error, theme.Accent, theme.Foreground],
      render color = esc color ++ "X" ++ rest color)
    (hx : ∀ color ∈ [theme.Warning, theme.Success, theme.Error, theme.Accent, theme.Foreground],
      'X' ∉ (esc color).toList) :
    buildThemeANSIMap render theme =
      { Warning := esc theme.Warning
        Success := esc theme.Success
        Error := esc theme.Error
        Accent := esc theme.Accent
        Foreground := esc theme.Foreground }
    ∧ defaultThemeANSIMap render = buildThemeANSIMap render defaultThemeColors := by
  constructor
  · unfold buildThemeANSIMap
    rw [captureANSIForeground_of_render render theme.Warning _ _
        (hr _ (by simp)) (hx _ (by simp)),
      captureANSIForeground_of_render render theme.Success _ _
        (hr _ (by simp)) (hx _ (by simp)),
      captureANSIForeground_of_render render theme.Error _ _
        (hr _ (by simp)) (hx _ (by simp)),
      captureANSIForeground_of_render render theme.Accent _ _
        (hr _ (by simp)) (hx _ (by simp)),
      captureANSIForeground_of_render render theme.Foreground _ _
        (hr _ (by simp)) (hx _ (by simp))]
  · rfl

/-- Closed instance of the ANSI-map specification, for a renderer that
wraps its color argument in an SGR-style escape before the text. -/
theorem buildThemeANSIMap_spec_witness :
    buildThemeANSIMap (fun c => "<sgr " ++ c ++ ">" ++ "X" ++ "<reset>") defaultThemeColors =
      { Warning := "<sgr #FFD600>"
        Success := "<sgr #00D588>"
        Error := "<sgr #FF84A8>"
        Accent := "<sgr #5F5FDF>"
        Foreground := "<sgr #D7D7FF>" } := by
  have h := buildThemeANSIMap_spec (fun c => "<sgr " ++ c ++ ">" ++ "X" ++ "<reset>")
    defaultThemeColors (fun c => "<sgr " ++ c ++ ">") (fun _ => "<reset>")
    (by intro color _; rfl)
    (by decide)
  exact h.1

/-- `maxLineWidth` from utils.go: the maximum width among the lines, where
`sw` abstracts the ANSI-aware `ansi.StringWidth` of the external library. -/
def maxLineWidth (sw : String → Nat) (lines : List String) : Nat :=
  lines.foldl (fun mx line => max mx (sw line)) 0

/-- The Go clamping of an overlay coordinate: raise negatives to zero
first, then cap at `hi` (which may itself be negative, as in utils.go where
`hi = bgWidth - fgWidth` can be negative when only one dimension of the
foreground is smaller). -/
def goClamp (v hi : Int) : Int :=
  let v1 := if v < 0 then 0 else v
  if v1 > hi then hi else v1

/-- One overlaid row of `placeOverlay` (utils.go, loop body for a row
inside the vertical band): the truncated left part of the background
padded to `x`, the foreground line, and the remainder of the background
from column `x + width(fgLine)` on. `tr` abstracts `truncate.String`,
`trl` abstracts `ansi.TruncateLeft`. -/
def overlayLine (sw : String → Nat) (tr : String → Nat → String)
    (trl : String → Int → String) (x : Int) (fgLine bgLine : String) : String :=
  let left :=
    if 0 < x then
      let l := tr bgLine x.toNat
      if (sw l : Int) < x then l ++ (List.replicate (x - (sw l : Int)).toNat ' ').asString else l
    else ""
  let rightStart := x + (sw fgLine : Int)
  let right := if rightStart < (sw bgLine : Int) then trl bgLine rightStart else ""
  left ++ fgLine ++ right

/-- The rows written by the `placeOverlay` loop, with `i` the running row
index: rows outside the vertical band `[y, y + fgLines.length)` are the
background rows unchanged; rows inside are overlaid with `fgLines[i-y]`. -/
def placeOverlayRows (sw : String → Nat) (tr : String → Nat → String)
    (trl : String → Int → String) (x y : Int) (fgLines : List String) :
    Int → List String → List String
  | _, [] => []
  | i, bgLine :: rest =>
    (if i < y ∨ i ≥ y + (fgLines.length : Int) then bgLine
     else overlayLine sw tr trl x (fgLines.getD (i - y).toNat "") bgLine)
      :: placeOverlayRows sw tr trl x y fgLines (i + 1) rest

/-- `placeOverlay` from utils.go: splits both strings into lines; if the
foreground is at least as wide and at least as tall as the background it is
returned unchanged; otherwise the position is clamped and each background
row is either kept or overlaid, the rows being joined with newlines
exactly as the Go string builder does. -/
def placeOverlay (sw : String → Nat) (tr : String → Nat → String)
    (trl : String → Int → String) (x y : Int) (fg bg : String) : String :=
  let fgLines := goSplitLines '\n' fg
  let bgLines := goSplitLines '\n' bg
  let fgWidth := maxLineWidth sw fgLines
  let bgWidth := maxLineWidth sw bgLines
  let bgHeight := bgLines.length
  let fgHeight := fgLines.length
  if fgWidth ≥ bgWidth ∧ fgHeight ≥ bgHeight then fg
  else
    let xc := goClamp x ((bgWidth : Int) - (fgWidth : Int))
    let yc := goClamp y ((bgHeight : Int) - (fgHeight : Int))
    String.intercalate "\n" (placeOverlayRows sw tr trl xc yc fgLines 0 bgLines)

theorem placeOverlayRows_length (sw : String → Nat) (tr : String → Nat → String)
    (trl : String → Int → String) (x y : Int) (fgLines : List String) :
    ∀ (i : Int) (bgLines : List String),
      (placeOverlayRows sw tr trl x y fgLines i bgLines).length = bgLines.length := by
  intro i bgLines
  induction bgLines generalizing i with
  | nil => rfl
  | cons head tail ih =>
    simp only [placeOverlayRows, List.length_cons, ih]

theorem placeOverlayRows_outside (sw : String → Nat) (tr : String → Nat → String)
    (trl : String → Int → String) (x y : Int) (fgLines : List String) :
    ∀ (i : Int) (bgLines : List String) (j : Nat),
      (i + (j : Int) < y ∨ i + (j : Int) ≥ y + (fgLines.length : Int)) →
      (placeOverlayRows sw tr trl x y fgLines i bgLines).get? j = bgLines.get? j := by
  intro i bgLines
  induction bgLines generalizing i with
  | nil => intro j _; rfl
  | cons head tail ih =>
    intro j hj
    cases j with
    | zero =>
      simp only [Int.natCast_zero, Int.add_zero] at hj
      simp only [placeOverlayRows, List.get?]
      rw [if_pos hj]
    | succ j' =>
      simp only [placeOverlayRows, List.get?]
      apply ih (i + 1) j'
      omega

/-- C10: if the foreground is at least as wide and at least as tall as the
background, `placeOverlay` returns the foreground unchanged; otherwise the
result is the newline-join of a row list with exactly as many rows as the
background has lines, and every row whose index lies outside the clamped
vertical band `[yc, yc + height fg)` is the corresponding background line
unchanged. -/
theorem placeOverlay_spec (sw : String → Nat) (tr : String → Nat → String)
    (trl : String → Int → String) (x y : Int) (fg bg : String) :
    (maxLineWidth sw (goSplitLines '\n' fg) ≥ maxLineWidth sw (goSplitLines '\n' bg)
        ∧ (goSplitLines '\n' fg).length ≥ (goSplitLines '\n' bg).length →
      placeOverlay sw tr trl x y fg bg = fg)
    ∧ (¬ (maxLineWidth sw (goSplitLines '\n' fg) ≥ maxLineWidth sw (goSplitLines '\n' bg)
        ∧ (goSplitLines '\n' fg).length ≥ (goSplitLines '\n' bg).length) →
      placeOverlay sw tr trl x y fg bg =
        String.intercalate "\n"
          (placeOverlayRows sw tr trl
            (goClamp x ((maxLineWidth sw (goSplitLines '\n' bg) : Int) - (maxLineWidth sw (goSplitLines '\n' fg) : Int)))
            (goClamp y (((goSplitLines '\n' bg).length : Int) - ((goSplitLines '\n' fg).length : Int)))
            (goSplitLines '\n' fg) 0 (goSplitLines '\n' bg))
      ∧ (placeOverlayRows sw tr trl
            (goClamp x ((maxLineWidth sw (goSplitLines '\n' bg) : Int) - (maxLineWidth sw (goSplitLines '\n' fg) : Int)))
            (goClamp y (((goSplitLines '\n' bg).length : Int) - ((goSplitLines '\n' fg).length : Int)))
            (goSplitLines '\n' fg) 0 (goSplitLines '\n' bg)).length = (goSplitLines '\n' bg).length
      ∧ ∀ j : Nat,
          ((j : Int) < goClamp y (((goSplitLines '\n' bg).length : Int) - ((goSplitLines '\n' fg).length : Int))
            ∨ (j : Int) ≥ goClamp y (((goSplitLines '\n' bg).length : Int) - ((goSplitLines '\n' fg).length : Int))
                + ((goSplitLines '\n' fg).length : Int)) →
          (placeOverlayRows sw tr trl
            (goClamp x ((maxLineWidth sw (goSplitLines '\n' bg) : Int) - (maxLineWidth sw (goSplitLines '\n' fg) : Int)))
            (goClamp y (((goSplitLines '\n' bg).length : Int) - ((goSplitLines '\n' fg).length : Int)))
            (goSplitLines '\n' fg) 0 (goSplitLines '\n' bg)).get? j = (goSplitLines '\n' bg).get? j) := by
  constructor
  · intro h
    unfold placeOverlay
    rw [if_pos h]
  · intro h
    refine ⟨?_, placeOverlayRows_length .., ?_⟩
    · unfold placeOverlay
      rw [if_neg h]
    · intro j hj
      apply placeOverlayRows_outside
      omega

/-- Closed instance of the overlay specification: a one-line foreground
placed on a three-line background keeps the remaining two lines intact,
and an oversized foreground is returned unchanged. -/
theorem placeOverlay_spec_witness :
    placeOverlay (fun s => s.length) (fun s n => (s.toList.take n).asString)
      (fun s n => (s.toList.drop n.toNat).asString) 0 1 "Z" "ab\ncd\nef" =
      String.intercalate "\n"
        (placeOverlayRows (fun s => s.length) (fun s n => (s.toList.take n).asString)
          (fun s n => (s.toList.drop n.toNat).asString) 0 1 ["Z"] 0 ["ab", "cd", "ef"])
    ∧ (placeOverlayRows (fun s => s.length) (fun s n => (s.toList.take n).asString)
          (fun s n => (s.toList.drop n.toNat).asString) 0 1 ["Z"] 0 ["ab", "cd", "ef"]).length = 3
    ∧ (placeOverlayRows (fun s => s.length) (fun s n => (s.toList.take n).asString)
          (fun s n => (s.toList.drop n.toNat).asString) 0 1 ["Z"] 0 ["ab", "cd", "ef"]).get? 0 = some "ab"
    ∧ placeOverlay (fun s => s.length) (fun s n => (s.toList.take n).asString)
      (fun s n => (s.toList.drop n.toNat).asString) 0 0 "wide\nwide" "x" = "wide\nwide" := by
  obtain ⟨h1, h2⟩ := placeOverlay_spec (fun s => s.length) (fun s n => (s.toList.take n).asString)
    (fun s n => (s.toList.drop n.toNat).asString) 0 1 "Z" "ab\ncd\nef"
  obtain ⟨g1, g2⟩ := placeOverlay_spec (fun s => s.length) (fun s n => (s.toList.take n).asString)
    (fun s n => (s.toList.drop n.toNat).asString) 0 0 "wide\nwide" "x"
  obtain ⟨e1, e2, e3⟩ := h2 (by decide)
  have hout := e3 0 (by decide)
  refine ⟨?_, ?_, ?_, g1 (by decide)⟩
  · have : goSplitLines '\n' "Z" = ["Z"] := by decide
    have hbg : goSplitLines '\n' "ab\ncd\nef" = ["ab", "cd", "ef"] := by decide
    simpa [this, hbg] using e1
  · have : goSplitLines '\n' "Z" = ["Z"] := by decide
    have hbg : goSplitLines '\n' "ab\ncd\nef" = ["ab", "cd", "ef"] := by decide
    simpa [this, hbg] using e2
  · have : goSplitLines '\n' "Z" = ["Z"] := by decide
    have hbg : goSplitLines '\n' "ab\ncd\nef" = ["ab", "cd", "ef"] := by decide
    simpa [this, hbg] using hout

/-- The steps of the release pipeline (spec §4.4); `MergeBranches` carries
the index of the branch being merged, so that a resume retries exactly the
failing merge. -/
inductive Step where
  | Init
  | CheckoutRoot
  | MergeBranches (index : Nat)
  | ApplyExclusions
  | Commit
  | Push
  | CreateRemoteMR
deriving DecidableEq

/-- Session statuses (spec §3). -/
inductive SessionStatus where
  | Active
  | Suspended
  | Completed
  | Aborted
  | Failed
deriving DecidableEq

/-- One selected merge request inside a session (spec §3). -/
structure MergeRequestRef where
  projectID : Nat
  sourceBranch : String
  targetBranch : String
  iid : Nat
  title : String
deriving DecidableEq

/-- One log line of a session (spec §3). -/
structure LogEntry where
  timestamp : Nat
  step : Step
  command : String
  outcome : String
  excerpt : String
deriving DecidableEq

/-- Modelled from the spec: `ReleaseSession` (spec §3) — the unit of work
of the Release Execution Engine, which is not among the files under src/.
`initCommit` is the commit recorded at `Init`, used by Abort. -/
structure ReleaseSession where
  id : String
  mergeRequests : List MergeRequestRef
  environment : Environment
  version : String
  excludePatterns : List String
  currentStep : Step
  status : SessionStatus
  log : List LogEntry
  initCommit : String
  createdAt : Nat
  updatedAt : Nat
deriving DecidableEq

/-- Outcome classification of one `git merge` (spec §4.2). -/
inductive MergeOutcome where
  | MergeOK
  | MergeConflict (files : List String)
  | GitError (msg : String)
deriving DecidableEq

/-- Modelled from the spec: the `MergeBranches` loop of the state machine
(not under src/). From branch index `i` with `n` branches in total, merge
branches in order; `oracle j` is git's outcome for merging branch `j`.
A conflict suspends the session at `MergeBranches j`; a git error fails
it; merging past the last branch advances to `ApplyExclusions`. The
returned list records the branch indices on which Merge was invoked.
`fuel` bounds the recursion and is always passed ≥ `n - i`. -/
def mergeLoop (oracle : Nat → MergeOutcome) (n : Nat) (s0 : ReleaseSession) :
    Nat → Nat → ReleaseSession × List Nat
  | i, fuel =>
    if i ≥ n then ({ s0 with currentStep := .ApplyExclusions, status := .Active }, [])
    else
      match fuel with
      | 0 => (s0, [])
      | fuel' + 1 =>
        match oracle i with
        | .MergeOK =>
          let r := mergeLoop oracle n s0 (i + 1) fuel'
          (r.1, i :: r.2)
        | .MergeConflict _ =>
          ({ s0 with currentStep := .MergeBranches i, status := .Suspended }, [i])
        | .GitError _ =>
          ({ s0 with currentStep := .MergeBranches i, status := .Failed }, [i])

/-- Modelled from the spec: run the `MergeBranches` step of a session from
the index recorded in `currentStep`. -/
def runMergeBranches (oracle : Nat → MergeOutcome) (s : ReleaseSession) :
    ReleaseSession × List Nat :=
  match s.currentStep with
  | .MergeBranches start =>
    mergeLoop oracle s.mergeRequests.length s start (s.mergeRequests.length + 1)
  | _ => (s, [])

/-- Modelled from the spec: the `Retry` command — only available while
Suspended; it re-invokes `Merge` on the branch recorded in `currentStep`
and continues the loop on success. -/
def retryCommand (oracle : Nat → MergeOutcome) (s : ReleaseSession) :
    ReleaseSession × List Nat :=
  if s.status = .Suspended then
    runMergeBranches oracle { s with status := .Active }
  else (s, [])

theorem mergeLoop_conflict (oracle : Nat → MergeOutcome) (n : Nat)
    (s0 : ReleaseSession) (k : Nat) (files : List String)
    (hconf : oracle k = .MergeConflict files) :
    ∀ fuel i, i ≤ k → k < n → k - i < fuel →
      (∀ j, i ≤ j → j < k → oracle j = .MergeOK) →
      mergeLoop oracle n s0 i fuel =
        ({ s0 with currentStep := .MergeBranches k, status := .Suspended },
          List.range' i (k - i + 1)) := by
  intro fuel
  induction fuel with
  | zero => intro i _ _ hlt _; omega
  | succ fuel' ih =>
    intro i hik hkn hfuel hok
    have hin : ¬ i ≥ n := by omega
    rcases Nat.lt_or_ge i k with hik' | hik'
    · have hoki : oracle i = .MergeOK := hok i (Nat.le_refl i) hik'
      rw [mergeLoop]
      rw [if_neg hin, hoki]
      simp only
      rw [ih (i + 1) (by omega) hkn (by omega) (fun j hj1 hj2 => hok j (by omega) hj2)]
      have h2 : k - i + 1 = (k - (i + 1) + 1) + 1 := by omega
      rw [h2, List.range'_succ]
      rfl
    · have hik2 : i = k := by omega
      subst hik2
      rw [mergeLoop]
      rw [if_neg hin, hconf]
      simp only [Nat.sub_self]
      rfl

theorem mergeLoop_calls_ge (oracle : Nat → MergeOutcome) (n : Nat)
    (s0 : ReleaseSession) :
    ∀ fuel i, ∀ j ∈ (mergeLoop oracle n s0 i fuel).2, i ≤ j := by
  intro fuel
  induction fuel with
  | zero =>
    intro i j hj
    rw [mergeLoop] at hj
    split at hj
    · simp at hj
    · simp at hj
  | succ fuel' ih =>
    intro i j hj
    rw [mergeLoop] at hj
    split at hj
    · simp at hj
    · revert hj
      cases oracle i with
      | MergeOK =>
        simp only [List.mem_cons]
        intro hj
        rcases hj with hj | hj
        · omega
        · have := ih (i + 1) j hj
          omega
      | MergeConflict files =>
        simp only [List.mem_singleton]
        omega
      | GitError msg =>
        simp only [List.mem_singleton]
        omega

theorem mergeLoop_first_call (oracle : Nat → MergeOutcome) (n : Nat)
    (s0 : ReleaseSession) (i fuel : Nat) (hin : i < n) (hfuel : 0 < fuel) :
    (mergeLoop oracle n s0 i fuel).2.head? = some i := by
  cases fuel with
  | zero => omega
  | succ fuel' =>
    rw [mergeLoop]
    rw [if_neg (by omega)]
    cases oracle i <;> rfl

/-- C1: if branches `0..k-1` merge successfully and branch `k` raises a
merge conflict, the session suspends with `currentStep = MergeBranches k`
after having invoked Merge exactly on branches `0..k` in order; Retry
after external conflict resolution re-invokes Merge first on exactly
branch `k`, and never on any branch before `k`. -/
theorem mergeBranches_retry_spec (s : ReleaseSession)
    (oracle1 oracle2 : Nat → MergeOutcome) (k : Nat) (files : List String)
    (hstep : s.currentStep = .MergeBranches 0)
    (hk : k < s.mergeRequests.length)
    (hok : ∀ j, j < k → oracle1 j = .MergeOK)
    (hconf : oracle1 k = .MergeConflict files)
    (hres : oracle2 k = .MergeOK) :
    (runMergeBranches oracle1 s).1.status = .Suspended
    ∧ (runMergeBranches oracle1 s).1.currentStep = .MergeBranches k
    ∧ (runMergeBranches oracle1 s).2 = List.range' 0 (k + 1)
    ∧ (retryCommand oracle2 (runMergeBranches oracle1 s).1).2.head? = some k
    ∧ ∀ j ∈ (retryCommand oracle2 (runMergeBranches oracle1 s).1).2, k ≤ j := by
  have hrun : runMergeBranches oracle1 s =
      ({ s with currentStep := .MergeBranches k, status := .Suspended },
        List.range' 0 (k - 0 + 1)) := by
    unfold runMergeBranches
    rw [hstep]
    exact mergeLoop_conflict oracle1 s.mergeRequests.length s k files hconf
      (s.mergeRequests.length + 1) 0 (by omega) hk (by omega)
      (fun j _ hj => hok j hj)
  have hretry : retryCommand oracle2 (runMergeBranches oracle1 s).1 =
      mergeLoop oracle2 s.mergeRequests.length
        { s with currentStep := .MergeBranches k, status := .Active } k
        (s.mergeRequests.length + 1) := by
    rw [hrun]
    unfold retryCommand
    rw [if_pos rfl]
    unfold runMergeBranches
    rfl
  refine ⟨by rw [hrun], by rw [hrun], by rw [hrun]; simp, ?_, ?_⟩
  · rw [hretry]
    exact mergeLoop_first_call oracle2 s.mergeRequests.length _ k _ hk (by omega)
  · intro j hj
    rw [hretry] at hj
    exact mergeLoop_calls_ge oracle2 s.mergeRequests.length _ _ k j hj

/-- The spec's concrete scenario: two merge requests, PROD, version 1.2.0. -/
def sampleSession : ReleaseSession :=
  { id := "rel-1"
    mergeRequests :=
      [{ projectID := 42, sourceBranch := "feature/a", targetBranch := "master", iid := 1, title := "A" },
       { projectID := 42, sourceBranch := "feature/b", targetBranch := "master", iid := 2, title := "B" }]
    environment := .PROD
    version := "1.2.0"
    excludePatterns := [".gitlab-ci.yml"]
    currentStep := .MergeBranches 0
    status := .Active
    log := []
    initCommit := "c0ffee"
    createdAt := 0
    updatedAt := 0 }

/-- Closed instance of the merge-retry specification: merge A succeeds,
merge B conflicts in file.go, the session suspends at index 1, and Retry
re-merges exactly branch 1. -/
theorem mergeBranches_retry_spec_witness :
    (runMergeBranches (fun j => if j == 1 then .MergeConflict ["file.go"] else .MergeOK) sampleSession).1.status
        = .Suspended
    ∧ (runMergeBranches (fun j => if j == 1 then .MergeConflict ["file.go"] else .MergeOK) sampleSession).1.currentStep
        = .MergeBranches 1
    ∧ (retryCommand (fun _ => .MergeOK)
        (runMergeBranches (fun j => if j == 1 then .MergeConflict ["file.go"] else .MergeOK) sampleSession).1).2.head?
        = some 1 := by
  have h := mergeBranches_retry_spec sampleSession
    (fun j => if j == 1 then .MergeConflict ["file.go"] else .MergeOK)
    (fun _ => .MergeOK) 1 ["file.go"] rfl (by decide)
    (fun j hj => by
      have hj0 : j = 0 := by omega
      subst hj0
      rfl)
    rfl rfl
  exact ⟨h.1, h.2.1, h.2.2.2.1⟩

/-- `HistoryEntry`: the index record of one terminated session (spec §3). -/
structure HistoryEntry where
  id : String
  tag : String
  environment : Environment
  dateTime : Nat
  mrCount : Nat
  status : String
deriving DecidableEq

/-- `HistoryDetail`: the full log of one terminated session together with
the `ThemeANSIMap` color snapshot captured at record time (spec §3). -/
structure HistoryDetail where
  id : String
  log : List LogEntry
  themeANSIMap : ThemeANSIMap
deriving DecidableEq

/-- The label stored in a `HistoryEntry` for a terminal status. -/
def statusLabel : SessionStatus → String
  | .Completed => "completed"
  | .Aborted => "aborted"
  | _ => ""

/-- A status is terminal when the session is Completed or Aborted; those
sessions move to history and are immutable afterwards (spec §3). -/
def isTerminalStatus : SessionStatus → Bool
  | .Completed => true
  | .Aborted => true
  | _ => false

/-- Modelled from the spec: the index row derived from a terminated
session — the tag is derived from version and environment, the spec
leaves the exact scheme open. -/
def historyEntryOf (s : ReleaseSession) : HistoryEntry :=
  { id := s.id
    tag := s.version ++ "-" ++ envRootBranch s.environment
    environment := s.environment
    dateTime := s.updatedAt
    mrCount := s.mergeRequests.length
    status := statusLabel s.status }

/-- Modelled from the spec: the detail record of a terminated session,
with the color snapshot captured at record time. -/
def historyDetailOf (s : ReleaseSession) (snapshot : ThemeANSIMap) : HistoryDetail :=
  { id := s.id, log := s.log, themeANSIMap := snapshot }

/-- Modelled from the spec: the serialized session snapshot is defined
below (`SessionJSON`); durable storage holds the session file, the
history index, and the detail records keyed by session id. -/
structure StorageState where
  sessionFile : Option ReleaseSession
  historyEntries : List HistoryEntry
  historyDetails : List (String × HistoryDetail)
deriving DecidableEq

/-- Modelled from the spec: `HistoryStore.Append` — one index row plus one
detail record keyed by the session id, append-only. -/
def historyAppend (st : StorageState) (e : HistoryEntry) (d : HistoryDetail) : StorageState :=
  { st with
    historyEntries := st.historyEntries ++ [e]
    historyDetails := st.historyDetails ++ [(e.id, d)] }

/-- Modelled from the spec: `HistoryStore.LoadIndex` returns all entries. -/
def LoadIndex (st : StorageState) : List HistoryEntry :=
  st.historyEntries

/-- The only error `LoadDetail` can raise. -/
inductive HistoryError where
  | NotFound
deriving DecidableEq

/-- First detail record stored under the given id, if any. -/
def lookupDetail : List (String × HistoryDetail) → String → Option HistoryDetail
  | [], _ => none
  | (key, d) :: rest, id => if key = id then some d else lookupDetail rest id

/-- Modelled from the spec: `HistoryStore.LoadDetail(id)` fails with
`NotFound` exactly when no detail record is stored under `id`. -/
def LoadDetail (st : StorageState) (id : String) : Except HistoryError HistoryDetail :=
  match lookupDetail st.historyDetails id with
  | some d => .ok d
  | none => .error .NotFound

/-- The git commands Abort issues. -/
inductive GitCall where
  | ResetHard (ref : String)
  | Clean
deriving DecidableEq

/-- Modelled from the spec: the `Abort` command (spec §4.4) — available
from every non-terminal state; it attempts `ResetHard` to the commit
recorded at `Init` and `Clean` of untracked files; a reset failure is
logged as UnrecoverableState but the session still transitions to
`Aborted`; the terminal transition appends the history records and clears
the session file. Returns the storage after the abort, the aborted
session, and the git commands attempted. -/
def abortCommand (st : StorageState) (s : ReleaseSession) (resetOk : Bool)
    (snapshot : ThemeANSIMap) : StorageState × ReleaseSession × List GitCall :=
  if isTerminalStatus s.status then (st, s, [])
  else
    let calls := [GitCall.ResetHard s.initCommit, GitCall.Clean]
    let abortLog :=
      if resetOk then s.log
      else s.log ++ [{ timestamp := s.updatedAt, step := s.currentStep,
                       command := "git reset --hard " ++ s.initCommit,
                       outcome := "UnrecoverableState",
                       excerpt := "manual cleanup is required" }]
    let aborted := { s with status := SessionStatus.Aborted, log := abortLog }
    let st' := historyAppend st (historyEntryOf aborted) (historyDetailOf aborted snapshot)
    ({ st' with sessionFile := none }, aborted, calls)

/-- C2: from every non-terminal state, Abort attempts `ResetHard` to the
commit recorded at Init followed by `Clean`, transitions the session to
`Aborted` regardless of whether the reset succeeded, and afterwards the
session file holds no session (so none remains in Active or Suspended
storage). -/
theorem abortCommand_spec (st : StorageState) (s : ReleaseSession)
    (resetOk : Bool) (snapshot : ThemeANSIMap)
    (h : isTerminalStatus s.status = false) :
    (abortCommand st s resetOk snapshot).2.1.status = .Aborted
    ∧ (abortCommand st s resetOk snapshot).2.2 = [GitCall.ResetHard s.initCommit, GitCall.Clean]
    ∧ (abortCommand st s resetOk snapshot).1.sessionFile = none := by
  unfold abortCommand
  rw [if_neg (by simp [h])]
  exact ⟨rfl, rfl, rfl⟩

/-- Closed instance of the Abort specification, from a Suspended session
with a failing reset: the session still ends Aborted and storage is clear. -/
theorem abortCommand_spec_witness :
    (abortCommand ⟨some sampleSession, [], []⟩
        { sampleSession with status := .Suspended } false
        ⟨"", "", "", "", ""⟩).2.1.status = .Aborted
    ∧ (abortCommand ⟨some sampleSession, [], []⟩
        { sampleSession with status := .Suspended } false
        ⟨"", "", "", "", ""⟩).2.2 = [GitCall.ResetHard "c0ffee", GitCall.Clean]
    ∧ (abortCommand ⟨some sampleSession, [], []⟩
        { sampleSession with status := .Suspended } false
        ⟨"", "", "", "", ""⟩).1.sessionFile = none := by
  have h := abortCommand_spec ⟨some sampleSession, [], []⟩
    { sampleSession with status := .Suspended } false ⟨"", "", "", "", ""⟩ rfl
  exact ⟨h.1, h.2.1, h.2.2⟩

/-- Modelled from the spec: history contents reachable by the completion
action — every Completed or Aborted session appends exactly one index
entry and one detail record, keyed by the same session id. -/
inductive HistoryBuilt : List HistoryEntry → List (String × HistoryDetail) → Prop where
  | nil : HistoryBuilt [] []
  | complete (es : List HistoryEntry) (ds : List (String × HistoryDetail))
      (s : ReleaseSession) (snapshot : ThemeANSIMap)
      (hterm : isTerminalStatus s.status = true)
      (hbuilt : HistoryBuilt es ds) :
      HistoryBuilt (es ++ [historyEntryOf s]) (ds ++ [(s.id, historyDetailOf s snapshot)])

theorem lookupDetail_append_left (ds ds' : List (String × HistoryDetail)) (id : String)
    (d : HistoryDetail) (h : lookupDetail ds id = some d) :
    lookupDetail (ds ++ ds') id = some d := by
  induction ds with
  | nil => exact absurd h (by simp [lookupDetail])
  | cons head tail ih =>
    obtain ⟨key, dd⟩ := head
    simp only [lookupDetail, List.cons_append] at h ⊢
    split at h
    · rename_i hkey
      rw [if_pos hkey]
      exact h
    · rename_i hkey
      rw [if_neg hkey]
      exact ih h

theorem lookupDetail_self (ds : List (String × HistoryDetail)) (key : String)
    (d : HistoryDetail) : ∃ d', lookupDetail (ds ++ [(key, d)]) key = some d' := by
  induction ds with
  | nil => exact ⟨d, by simp [lookupDetail]⟩
  | cons head tail ih =>
    obtain ⟨k, dd⟩ := head
    by_cases hk : k = key
    · exact ⟨dd, by simp [lookupDetail, hk]⟩
    · obtain ⟨d', hd'⟩ := ih
      exact ⟨d', by simp [lookupDetail, hk, hd']⟩

theorem lookupDetail_none_iff (ds : List (String × HistoryDetail)) (id : String) :
    lookupDetail ds id = none ↔ id ∉ ds.map Prod.fst := by
  induction ds with
  | nil => simp [lookupDetail]
  | cons head tail ih =>
    obtain ⟨key, d⟩ := head
    by_cases hk : key = id
    · simp [lookupDetail, hk]
    · simp only [lookupDetail, if_neg hk, List.map_cons, List.mem_cons, ih]
      constructor
      · intro h
        intro hc
        rcases hc with hc | hc
        · exact hk hc.symm
        · exact h hc
      · intro h hc
        exact h (Or.inr hc)

/-- C6: `LoadDetail id` fails with `NotFound` exactly when no record is
keyed by `id`, and in any history reachable by the completion action —
one entry and one detail per Completed or Aborted session, with matching
ids — `LoadDetail entry.id` succeeds for every entry of `LoadIndex`. -/
theorem loadDetail_spec (sf : Option ReleaseSession) (es : List HistoryEntry)
    (ds : List (String × HistoryDetail)) (id : String) :
    (LoadDetail ⟨sf, es, ds⟩ id = .error .NotFound ↔ id ∉ ds.map Prod.fst)
    ∧ (HistoryBuilt es ds →
        ∀ e ∈ LoadIndex ⟨sf, es, ds⟩, ∃ d, LoadDetail ⟨sf, es, ds⟩ e.id = .ok d) := by
  constructor
  · rw [← lookupDetail_none_iff]
    unfold LoadDetail
    constructor
    · intro h
      cases hl : lookupDetail ds id with
      | none => rfl
      | some d => rw [hl] at h; exact Except.noConfusion h
    · intro h
      rw [h]
  · intro hbuilt
    intro e he
    simp only [LoadIndex] at he
    simp only [LoadDetail]
    induction hbuilt with
    | nil => simp at he
    | complete es' ds' s snapshot hterm hb ih =>
      rcases List.mem_append.mp he with he' | he'
      · obtain ⟨d, hd⟩ := ih he'
        revert hd
        cases hl : lookupDetail ds' e.id with
        | none => intro hd; exact Except.noConfusion hd
        | some dd =>
          intro hd
          rw [lookupDetail_append_left ds' [(s.id, historyDetailOf s snapshot)] e.id dd hl]
          exact ⟨dd, rfl⟩
      · have heq : e = historyEntryOf s := by simpa using he'
        subst heq
        obtain ⟨d', hd'⟩ := lookupDetail_self ds' s.id (historyDetailOf s snapshot)
        have : (historyEntryOf s).id = s.id := rfl
        rw [this, hd']
        exact ⟨d', rfl⟩

/-- The sample session after an abort. -/
def sampleAborted : ReleaseSession :=
  { sampleSession with status := .Aborted }

/-- The history records of the aborted sample session. -/
def sampleHistoryEntries : List HistoryEntry :=
  [] ++ [historyEntryOf sampleAborted]

/-- The detail records of the aborted sample session. -/
def sampleHistoryDetails : List (String × HistoryDetail) :=
  [] ++ [(sampleAborted.id, historyDetailOf sampleAborted ⟨"", "", "", "", ""⟩)]

/-- Closed instance of the history specification: a one-record history
built from an aborted session answers `LoadDetail` for its entry, and an
unknown id is `NotFound`. -/
theorem loadDetail_spec_witness :
    (∃ d, LoadDetail ⟨none, sampleHistoryEntries, sampleHistoryDetails⟩
        (historyEntryOf sampleAborted).id = .ok d)
    ∧ LoadDetail ⟨none, sampleHistoryEntries, sampleHistoryDetails⟩
        "unknown-id" = .error .NotFound := by
  obtain ⟨h1, h2⟩ := loadDetail_spec none sampleHistoryEntries sampleHistoryDetails "unknown-id"
  refine ⟨?_, h1.mpr (by decide)⟩
  exact h2 (HistoryBuilt.complete [] [] sampleAborted ⟨"", "", "", "", ""⟩ rfl HistoryBuilt.nil)
    _ (by simp [LoadIndex, sampleHistoryEntries])

/-- Serialized form of a status (JSON string). -/
def statusToString : SessionStatus → String
  | .Active => "active"
  | .Suspended => "suspended"
  | .Completed => "completed"
  | .Aborted => "aborted"
  | .Failed => "failed"

/-- Parse a serialized status back. -/
def statusOfString (s : String) : Option SessionStatus :=
  if s = "active" then some .Active
  else if s = "suspended" then some .Suspended
  else if s = "completed" then some .Completed
  else if s = "aborted" then some .Aborted
  else if s = "failed" then some .Failed
  else none

/-- Serialized form of an environment (JSON string). -/
def envToString : Environment → String
  | .DEVELOP => "DEVELOP"
  | .TEST => "TEST"
  | .STAGE => "STAGE"
  | .PROD => "PROD"

/-- Parse a serialized environment back. -/
def envOfString (s : String) : Option Environment :=
  if s = "DEVELOP" then some .DEVELOP
  else if s = "TEST" then some .TEST
  else if s = "STAGE" then some .STAGE
  else if s = "PROD" then some .PROD
  else none

/-- Serialized form of a step: a name plus the merge index (zero when the
step carries none). -/
def stepToJSON : Step → String × Nat
  | .Init => ("init", 0)
  | .CheckoutRoot => ("checkout_root", 0)
  | .MergeBranches k => ("merge_branches", k)
  | .ApplyExclusions => ("apply_exclusions", 0)
  | .Commit => ("commit", 0)
  | .Push => ("push", 0)
  | .CreateRemoteMR => ("create_remote_mr", 0)

/-- Parse a serialized step back. -/
def stepOfJSON (p : String × Nat) : Option Step :=
  if p.1 = "init" then some .Init
  else if p.1 = "checkout_root" then some .CheckoutRoot
  else if p.1 = "merge_branches" then some (.MergeBranches p.2)
  else if p.1 = "apply_exclusions" then some .ApplyExclusions
  else if p.1 = "commit" then some .Commit
  else if p.1 = "push" then some .Push
  else if p.1 = "create_remote_mr" then some .CreateRemoteMR
  else none

/-- Serialized form of a log entry. -/
structure LogEntryJSON where
  timestamp : Nat
  step : String × Nat
  command : String
  outcome : String
  excerpt : String
deriving DecidableEq

/-- Serialize a log entry. -/
def encodeLogEntry (e : LogEntry) : LogEntryJSON :=
  { timestamp := e.timestamp, step := stepToJSON e.step, command := e.command,
    outcome := e.outcome, excerpt := e.excerpt }

/-- Parse a serialized log entry back. -/
def decodeLogEntry (j : LogEntryJSON) : Option LogEntry :=
  match stepOfJSON j.step with
  | some st => some { timestamp := j.timestamp, step := st, command := j.command,
                      outcome := j.outcome, excerpt := j.excerpt }
  | none => none

/-- Parse a serialized log back (all entries must parse). -/
def decodeLog : List LogEntryJSON → Option (List LogEntry)
  | [] => some []
  | e :: rest =>
    match decodeLogEntry e, decodeLog rest with
    | some e', some rest' => some (e' :: rest')
    | _, _ => none

/-- Modelled from the spec: the JSON-shaped on-disk snapshot of a
`ReleaseSession` (spec §4.5 and §6; the SessionStore is not under src/). -/
structure SessionJSON where
  id : String
  mergeRequests : List MergeRequestRef
  environment : String
  version : String
  excludePatterns : List String
  currentStep : String × Nat
  status : String
  log : List LogEntryJSON
  initCommit : String
  createdAt : Nat
  updatedAt : Nat
deriving DecidableEq

/-- Serialize the full session snapshot. -/
def encodeSession (s : ReleaseSession) : SessionJSON :=
  { id := s.id
    mergeRequests := s.mergeRequests
    environment := envToString s.environment
    version := s.version
    excludePatterns := s.excludePatterns
    currentStep := stepToJSON s.currentStep
    status := statusToString s.status
    log := s.log.map encodeLogEntry
    initCommit := s.initCommit
    createdAt := s.createdAt
    updatedAt := s.updatedAt }

/-- Parse a stored session snapshot back; every enum field must parse. -/
def decodeSession (j : SessionJSON) : Option ReleaseSession :=
  match envOfString j.environment, stepOfJSON j.currentStep,
      statusOfString j.status, decodeLog j.log with
  | some env, some step, some status, some log =>
    some { id := j.id
           mergeRequests := j.mergeRequests
           environment := env
           version := j.version
           excludePatterns := j.excludePatterns
           currentStep := step
           status := status
           log := log
           initCommit := j.initCommit
           createdAt := j.createdAt
           updatedAt := j.updatedAt }
  | _, _, _, _ => none

/-- Modelled from the spec: `SessionStore.Save` overwrites the single
well-known session file with the full snapshot (the atomic
write-to-temp-then-rename is below the abstraction: the file either holds
the previous value or the new snapshot). -/
def sessionStoreSave (file : Option SessionJSON) (s : ReleaseSession) : Option SessionJSON :=
  some (encodeSession s)

/-- Modelled from the spec: `SessionStore.Load` reads the stored snapshot
back, if any. -/
def sessionStoreLoad (file : Option SessionJSON) : Option ReleaseSession :=
  file.bind decodeSession

theorem stepOfJSON_stepToJSON (st : Step) : stepOfJSON (stepToJSON st) = some st := by
  cases st <;> rfl

theorem decodeLog_encode (log : List LogEntry) :
    decodeLog (log.map encodeLogEntry) = some log := by
  induction log with
  | nil => rfl
  | cons e rest ih =>
    simp only [List.map_cons, decodeLog, ih]
    have : decodeLogEntry (encodeLogEntry e) = some e := by
      unfold decodeLogEntry encodeLogEntry
      simp only [stepOfJSON_stepToJSON]
    rw [this]

theorem decodeSession_encodeSession (s : ReleaseSession) :
    decodeSession (encodeSession s) = some s := by
  unfold decodeSession encodeSession
  have henv : envOfString (envToString s.environment) = some s.environment := by
    cases h : s.environment <;> rfl
  have hstatus : statusOfString (statusToString s.status) = some s.status := by
    cases h : s.status <;> rfl
  rw [henv, stepOfJSON_stepToJSON, hstatus, decodeLog_encode]

/-- C5: for every release session, `Load` after `Save` yields the session
back, field for field: the snapshot written by `Save` decodes to a
session equal (as a whole record, hence in every field) to the one saved. -/
theorem sessionStore_roundTrip (file : Option SessionJSON) (s : ReleaseSession) :
    sessionStoreLoad (sessionStoreSave file s) = some s := by
  unfold sessionStoreLoad sessionStoreSave
  exact decodeSession_encodeSession s

/-- Closed instance of the Save/Load round-trip at the sample session. -/
theorem sessionStore_roundTrip_witness :
    sessionStoreLoad (sessionStoreSave none sampleSession) = some sampleSession :=
  sessionStore_roundTrip none sampleSession
